import Mathlib

/-
Verification of the callback/event-dispatch contract documented in
src/documentation/Callback.d.ts of the innercore-docs repository.

The repository ships only the declared surface (a TypeScript .d.ts file):
`Callback.addCallback(name, func): void` registers a handler for an event
name and `Callback.invokeCallback(name, o1?..o10?): void` fires an event
with up to ten positional arguments.  The dispatch engine itself is not in
the repository, so the engine below is modelled from the specification
(spec.md, sections 3-7): a name-keyed registry of ordered handler lists,
synchronous in-order invocation, a monotone per-fire prevention flag, a
"first non-default answer wins" rule for transforming events, per-handler
failure isolation, and padding of missing dynamic arguments with an
absent-value marker.
-/

namespace CallbackBus

/-- Modelled from the spec: an argument value carried by the bus, a tagged
union covering number, text, boolean and the absent-value marker used to pad
missing positional arguments (spec.md section 9, "tagged union covering
number, text, boolean, struct, absent"). -/
inductive Val : Type where
  | num : Int → Val
  | str : String → Val
  | boolV : Bool → Val
  | absent : Val
deriving DecidableEq, Repr

/-- Modelled from the spec: a registered handler.  `Handler.mk id run` pairs
an identity (so that calls can be traced and duplicate registrations of the
same reference distinguished from distinct handlers) with its behaviour: on
an argument list the handler reports whether it called prevent, an optional
transform return value, whether it raised a failure, and the registrations
it performed during its run (`addCallback` calls made mid-dispatch). -/
inductive Handler : Type where
  | mk : Nat → (List Val → Bool × Option Val × Bool × List (String × Handler)) → Handler

/-- The identity of a handler reference. -/
def Handler.hid : Handler → Nat
  | .mk i _ => i

/-- The behaviour of a handler on an argument list. -/
def Handler.run : Handler → List Val → Bool × Option Val × Bool × List (String × Handler)
  | .mk _ f => f

/-- The outcome of one handler run. -/
def HOut : Type := Bool × Option Val × Bool × List (String × Handler)

/-- Whether the handler successfully called prevent during its run. -/
def HOut.prevents (o : HOut) : Bool := o.1

/-- The transform value the handler returned, if any. -/
def HOut.ret (o : HOut) : Option Val := o.2.1

/-- Whether the handler raised a failure. -/
def HOut.fails (o : HOut) : Bool := o.2.2.1

/-- The registrations the handler performed during its run. -/
def HOut.regs (o : HOut) : List (String × Handler) := o.2.2.2

/-- Modelled from the spec: the Registry, a mapping from event name to the
ordered list of handlers registered for it (spec.md section 4.1).  A name
with no registrations maps to the empty list. -/
def Registry : Type := String → List Handler

/-- The empty registry: no handler registered for any name. -/
def Registry.empty : Registry := fun _ => []

/-- Modelled from the spec: `register(name, handler)` / `Callback.addCallback`
appends the handler to the handler list for the name, creating the list if
absent; it never fails and allows duplicate references (spec.md section 4.1). -/
def register (r : Registry) (name : String) (h : Handler) : Registry :=
  fun n => if n = name then r n ++ [h] else r n

/-- Applies a batch of registrations (performed by a handler mid-dispatch)
to the registry, in order. -/
def applyRegs (r : Registry) : List (String × Handler) → Registry
  | [] => r
  | (n, h) :: rest => applyRegs (register r n h) rest

/-- Modelled from the spec: the per-fire state the producer observes after a
fire: the monotone prevention flag (spec.md section 4.3), the transform
result for transforming events, the trace of handler identities called (in
call order), and the identities of handlers whose failures were reported. -/
structure FireState : Type where
  prevented : Bool
  result : Option Val
  trace : List Nat
  failures : List Nat
deriving DecidableEq, Repr

/-- The fresh state at the start of one fire: prevention flag false, no
result, nothing called, no failures. -/
def FireState.init : FireState :=
  { prevented := false, result := none, trace := [], failures := [] }

/-- Modelled from the spec: the Invoker's dispatch loop (spec.md section 4.2).
It walks the snapshot of the handler list taken when the fire started,
calling each handler in order with the same arguments.  A handler failure is
recorded and dispatch continues; a successful prevent call sets the monotone
prevention flag; for a transforming event, the first non-absent return value
of a non-failing handler becomes the result and short-circuits the remaining
handlers.  Registrations a handler performs are applied to the registry but
never to the snapshot being iterated. -/
def runHandlers (transforming : Bool) (args : List Val) :
    List Handler → Registry → FireState → Registry × FireState
  | [], r, st => (r, st)
  | h :: hs, r, st =>
    let o : HOut := h.run args
    let r1 := applyRegs r o.regs
    let st1 : FireState :=
      { prevented := st.prevented || o.prevents
        result := st.result
        trace := st.trace ++ [h.hid]
        failures := if o.fails then st.failures ++ [h.hid] else st.failures }
    if o.fails then
      runHandlers transforming args hs r1 st1
    else
      match transforming, o.ret with
      | true, some v => (r1, { st1 with result := some v })
      | true, none => runHandlers transforming args hs r1 st1
      | false, _ => runHandlers transforming args hs r1 st1

/-- Modelled from the spec: `fire(name, args)` resolves the handler list for
the name from the registry (the snapshot), starts from the fresh per-fire
state, and dispatches (spec.md section 4.2). -/
def fire (r : Registry) (transforming : Bool) (name : String) (args : List Val) :
    Registry × FireState :=
  runHandlers transforming args (r name) r FireState.init

/-- Modelled from the spec: padding of the dynamic invocation path's argument
list to the declared maximum of ten positions with the absent-value marker
(spec.md section 3, InvocationArgs). -/
def padArgs (args : List Val) : List Val :=
  args ++ List.replicate (10 - args.length) Val.absent

/-- Modelled from the spec: `Callback.invokeCallback(name, o1?..o10?)`, the
dynamic untyped fire path (src/documentation/Callback.d.ts line 23).  It is
non-transforming, accepts any name, and pads missing arguments with the
absent marker before dispatch. -/
def invokeCallback (r : Registry) (name : String) (args : List Val) :
    Registry × FireState :=
  fire r false name (padArgs args)

/-- The producer-visible return value of `Callback.invokeCallback`, per its
declaration in src/documentation/Callback.d.ts line 23: the function is
declared `void`, so the caller receives no value. -/
def invokeCallbackReturnValue (_r : Registry) (_name : String) (_args : List Val) : Unit :=
  ()

/-- Modelled from the spec: the companion prevent operation (spec.md section
6).  Its input is the prevention flag of the fire currently in progress, if
any.  Inside a fire it sets the flag to true; outside any fire it is a no-op
(the implementation choice the spec allows), never a crash. -/
def preventOp : Option Bool → Option Bool
  | some _ => some true
  | none => none

/-- A handler with the given identity that does nothing. -/
def noopHandler (i : Nat) : Handler :=
  .mk i (fun _ => (false, none, false, []))

/-- A handler with the given identity that calls prevent and nothing else. -/
def preventHandler (i : Nat) : Handler :=
  .mk i (fun _ => (true, none, false, []))

/-- A handler with the given identity that raises a failure; `p` says whether
it successfully called prevent before failing. -/
def failHandler (i : Nat) (p : Bool) : Handler :=
  .mk i (fun _ => (p, none, true, []))

/-- A handler with the given identity that returns the given transform value. -/
def retHandler (i : Nat) (v : Option Val) : Handler :=
  .mk i (fun _ => (false, v, false, []))

/-- A handler with the given identity that registers another handler for the
given name during its run. -/
def regHandler (i : Nat) (n : String) (h : Handler) : Handler :=
  .mk i (fun _ => (false, none, false, [(n, h)]))

/-- The per-fire state a dispatch produces does not depend on the registry it
threads: it is a function of the snapshot, the arguments and the starting
state only. -/
theorem runHandlers_state_indep (t : Bool) (a : List Val) (hs : List Handler) :
    ∀ (r r' : Registry) (st : FireState),
      (runHandlers t a hs r st).2 = (runHandlers t a hs r' st).2 := by
  induction hs with
  | nil => intro r r' st; rfl
  | cons h hs ih =>
    intro r r' st
    simp only [runHandlers]
    split
    · exact ih _ _ _
    · split
      · rfl
      · exact ih _ _ _
      · exact ih _ _ _

/-- On a non-transforming dispatch every handler of the snapshot is called,
in list order. -/
theorem runHandlers_false_trace (a : List Val) (hs : List Handler) :
    ∀ (r : Registry) (st : FireState),
      ((runHandlers false a hs r st).2).trace = st.trace ++ hs.map Handler.hid := by
  induction hs with
  | nil => intro r st; simp [runHandlers]
  | cons h hs ih =>
    intro r st
    simp only [runHandlers]
    split
    · rw [ih]; simp
    · rw [ih]; simp

/-- On a non-transforming dispatch the final prevention flag is the starting
flag joined with the prevent reports of all handlers of the snapshot. -/
theorem runHandlers_false_prevented (a : List Val) (hs : List Handler) :
    ∀ (r : Registry) (st : FireState),
      ((runHandlers false a hs r st).2).prevented
        = (st.prevented || hs.any (fun h => HOut.prevents (h.run a))) := by
  induction hs with
  | nil => intro r st; simp [runHandlers]
  | cons h hs ih =>
    intro r st
    simp only [runHandlers]
    split
    · rw [ih]; simp [Bool.or_assoc]
    · rw [ih]; simp [Bool.or_assoc]

/-- On a non-transforming dispatch the reported failures are exactly the
handlers of the snapshot whose run fails, in call order. -/
theorem runHandlers_false_failures (a : List Val) (hs : List Handler) :
    ∀ (r : Registry) (st : FireState),
      ((runHandlers false a hs r st).2).failures
        = st.failures ++ (hs.filter (fun h => HOut.fails (h.run a))).map Handler.hid := by
  induction hs with
  | nil => intro r st; simp [runHandlers]
  | cons h hs ih =>
    intro r st
    simp only [runHandlers]
    split
    case isTrue hf =>
      rw [ih]; simp [List.filter_cons, hf]
    case isFalse hf =>
      rw [ih]
      simp only [List.filter_cons]
      rw [if_neg (by simpa using hf)]

/-- The prevention flag is monotone: once set during a dispatch, no later
handler can reset it. -/
theorem runHandlers_prevented_mono (t : Bool) (a : List Val) (hs : List Handler) :
    ∀ (r : Registry) (st : FireState), st.prevented = true →
      ((runHandlers t a hs r st).2).prevented = true := by
  induction hs with
  | nil => intro r st hp; simpa [runHandlers] using hp
  | cons h hs ih =>
    intro r st hp
    simp only [runHandlers]
    split
    · exact ih _ _ (by simp [hp])
    · split
      · simp [hp]
      · exact ih _ _ (by simp [hp])
      · exact ih _ _ (by simp [hp])

/-- On a transforming dispatch, after a run of handlers that fail or return
no value, the first non-failing handler to return a value determines the
result and stops the dispatch: the trace ends at that handler. -/
theorem runHandlers_true_first_answer (a : List Val) (v : Val) (h : Handler)
    (ys : List Handler) (hno : HOut.fails (h.run a) = false)
    (hret : HOut.ret (h.run a) = some v) :
    ∀ (xs : List Handler),
      (∀ x ∈ xs, HOut.fails (x.run a) = true ∨ HOut.ret (x.run a) = none) →
      ∀ (r : Registry) (st : FireState),
        ((runHandlers true a (xs ++ h :: ys) r st).2).result = some v ∧
        ((runHandlers true a (xs ++ h :: ys) r st).2).trace
          = st.trace ++ xs.map Handler.hid ++ [h.hid] := by
  intro xs
  induction xs with
  | nil =>
    intro _ r st
    simp only [List.nil_append, runHandlers, hno, hret]
    simp
  | cons x xs ih =>
    intro hall r st
    have hx := hall x (by simp)
    simp only [List.cons_append, runHandlers]
    split
    case isTrue hf =>
      have := ih (fun y hy => hall y (by simp [hy]))
        (applyRegs r (HOut.regs (x.run a)))
        { prevented := st.prevented || HOut.prevents (x.run a)
          result := st.result
          trace := st.trace ++ [x.hid]
          failures := st.failures ++ [x.hid] }
      simpa using this
    case isFalse hf =>
      have hxr : HOut.ret (x.run a) = none := by
        rcases hx with hx | hx
        · exact absurd hx (by simpa using hf)
        · exact hx
      rw [hxr]
      have := ih (fun y hy => hall y (by simp [hy]))
        (applyRegs r (HOut.regs (x.run a)))
        { prevented := st.prevented || HOut.prevents (x.run a)
          result := st.result
          trace := st.trace ++ [x.hid]
          failures := st.failures }
      simpa using this

/-- A sample registry with two inert handlers registered for "BuildBlock",
in that order. -/
def sampleRegistryTwo : Registry :=
  register (register Registry.empty "BuildBlock" (noopHandler 1)) "BuildBlock" (noopHandler 2)

/-- C1: For every event name and every handler sequence registered for it in
that order, the untyped fire path calls the handlers in exactly registration
order, every time, and a registration made for a different event name does
not change the dispatch for this name at all. -/
theorem fire_calls_handlers_in_registration_order
    (r : Registry) (name : String) (args : List Val) :
    ((invokeCallback r name args).2).trace = (r name).map Handler.hid ∧
    (∀ (m : String) (h : Handler), m ≠ name →
      (invokeCallback (register r m h) name args).2 = (invokeCallback r name args).2) := by
  constructor
  · rw [invokeCallback, fire, runHandlers_false_trace]
    simp [FireState.init]
  · intro m h hmn
    rw [invokeCallback, invokeCallback, fire, fire]
    have hsame : (register r m h) name = r name := by
      simp [register, Ne.symm hmn]
    rw [hsame]
    exact runHandlers_state_indep _ _ _ _ _ _

/-- Witness for C1: two handlers registered for "BuildBlock" are called as 1
then 2, and a registration for the unrelated name "ItemUse" leaves the
"BuildBlock" dispatch unchanged. -/
theorem fire_calls_handlers_in_registration_order_witness :
    ((invokeCallback sampleRegistryTwo "BuildBlock" []).2).trace = [1, 2] ∧
    (invokeCallback (register sampleRegistryTwo "ItemUse" (noopHandler 3)) "BuildBlock" []).2
      = (invokeCallback sampleRegistryTwo "BuildBlock" []).2 := by
  refine ⟨?_, ?_⟩
  · rw [(fire_calls_handlers_in_registration_order sampleRegistryTwo "BuildBlock" []).1]
    rfl
  · exact (fire_calls_handlers_in_registration_order sampleRegistryTwo "BuildBlock" []).2
      "ItemUse" (noopHandler 3) (by decide)

/-- A sample registry with a preventing handler then an inert handler
registered for "BuildBlock". -/
def sampleRegistryPrevent : Registry :=
  register (register Registry.empty "BuildBlock" (preventHandler 1)) "BuildBlock" (noopHandler 2)

/-- C2: the prevention flag of a fire starts false, ends true as soon as any
single registered handler calls prevent, is monotone during dispatch (no
handler can reset it), and a prevent call does not stop the remaining
handlers: the fire still calls every registered handler. -/
theorem prevent_sets_monotone_flag_observed_by_producer
    (r : Registry) (name : String) (args : List Val) (h : Handler)
    (hmem : h ∈ r name) (hp : HOut.prevents (h.run args) = true) :
    FireState.init.prevented = false ∧
    ((fire r false name args).2).prevented = true ∧
    (∀ (t : Bool) (hs : List Handler) (r' : Registry) (st : FireState),
        st.prevented = true → ((runHandlers t args hs r' st).2).prevented = true) ∧
    ((fire r false name args).2).trace = (r name).map Handler.hid := by
  refine ⟨rfl, ?_, ?_, ?_⟩
  · rw [fire, runHandlers_false_prevented]
    simp only [FireState.init, Bool.false_or, List.any_eq_true]
    exact ⟨h, hmem, hp⟩
  · intro t hs r' st hst
    exact runHandlers_prevented_mono t args hs r' st hst
  · rw [fire, runHandlers_false_trace]
    simp [FireState.init]

/-- Witness for C2: with handler 1 calling prevent and handler 2 inert on
"BuildBlock", the fire reports prevented and still calls both handlers. -/
theorem prevent_sets_monotone_flag_observed_by_producer_witness :
    preventHandler 1 ∈ sampleRegistryPrevent "BuildBlock" ∧
    ((fire sampleRegistryPrevent false "BuildBlock" [Val.num 1]).2).prevented = true ∧
    ((fire sampleRegistryPrevent false "BuildBlock" [Val.num 1]).2).trace = [1, 2] := by
  have hmem : preventHandler 1 ∈ sampleRegistryPrevent "BuildBlock" := by
    simp [sampleRegistryPrevent, register, Registry.empty]
  have hth := prevent_sets_monotone_flag_observed_by_producer sampleRegistryPrevent
    "BuildBlock" [Val.num 1] (preventHandler 1) hmem rfl
  refine ⟨hmem, hth.2.1, ?_⟩
  rw [hth.2.2.2]
  rfl

/-- C6: firing an event name with zero registered handlers is a silent no-op,
not an error: the producer observes the fresh per-fire state, prevention
flag false and no result. -/
theorem fire_without_handlers_is_noop
    (r : Registry) (t : Bool) (name : String) (args : List Val)
    (hempty : r name = []) :
    (fire r t name args).2 = FireState.init ∧
    ((fire r t name args).2).prevented = false ∧
    ((fire r t name args).2).result = none := by
  rw [fire, hempty]
  exact ⟨rfl, rfl, rfl⟩

/-- Witness for C6: firing the custom name "MyModHello" with argument 7 on
the empty registry leaves the fresh state. -/
theorem fire_without_handlers_is_noop_witness :
    Registry.empty "MyModHello" = ([] : List Handler) ∧
    (fire Registry.empty false "MyModHello" [Val.num 7]).2 = FireState.init :=
  ⟨rfl, (fire_without_handlers_is_noop Registry.empty false "MyModHello" [Val.num 7] rfl).1⟩

/-- C7: register (addCallback) never fails: it appends the handler to the
list for the name, creating the list if absent (the empty registry maps every
name to the empty list), leaves every other name untouched, and a duplicate
registration of the same reference is kept: a subsequent fire calls it
twice. -/
theorem register_appends_and_allows_duplicates
    (r : Registry) (name : String) (h : Handler) :
    (register r name h) name = r name ++ [h] ∧
    (∀ m : String, m ≠ name → (register r name h) m = r m) ∧
    Registry.empty name = [] ∧
    ((invokeCallback (register (register r name h) name h) name []).2).trace
      = (r name).map Handler.hid ++ [h.hid, h.hid] := by
  refine ⟨by simp [register], ?_, rfl, ?_⟩
  · intro m hm
    simp [register, hm]
  · rw [invokeCallback, fire, runHandlers_false_trace]
    simp [FireState.init, register]

/-- Witness for C7: registering handler 5 for "MyModHello" on the empty
registry yields the one-element list, leaves "ItemUse" empty, and after a
duplicate registration a fire calls handler 5 twice. -/
theorem register_appends_and_allows_duplicates_witness :
    (register Registry.empty "MyModHello" (noopHandler 5)) "MyModHello" = [noopHandler 5] ∧
    (register Registry.empty "MyModHello" (noopHandler 5)) "ItemUse" = [] ∧
    ((invokeCallback (register (register Registry.empty "MyModHello" (noopHandler 5))
        "MyModHello" (noopHandler 5)) "MyModHello" []).2).trace = [5, 5] := by
  have hth := register_appends_and_allows_duplicates Registry.empty "MyModHello" (noopHandler 5)
  refine ⟨by simpa [Registry.empty] using hth.1, hth.2.1 "ItemUse" (by decide), ?_⟩
  rw [hth.2.2.2]
  rfl

/-- C9: the prevent operation called with no fire in progress is a no-op, not
a crash: preventOp is a total function that leaves the absent fire context
unchanged, while inside a fire for a preventable event it sets the flag to
true. -/
theorem prevent_outside_fire_is_noop :
    preventOp none = none ∧ ∀ b : Bool, preventOp (some b) = some true :=
  ⟨rfl, fun _ => rfl⟩

/-- C10: invokeCallback is declared void (src/documentation/Callback.d.ts
line 23): its producer-visible return value is the unit value for every
registry, name and argument list, so the caller cannot observe the prevention
flag or any transform result through the return value. -/
theorem invokeCallback_returns_no_value
    (r : Registry) (name : String) (args : List Val) :
    invokeCallbackReturnValue r name args = () ∧
    ∀ (r' : Registry) (name' : String) (args' : List Val),
      invokeCallbackReturnValue r name args = invokeCallbackReturnValue r' name' args' :=
  ⟨rfl, fun _ _ _ => rfl⟩

/-- A sample registry for "ItemNameOverride" with three transforming
handlers: handler 1 returns no value, handler 2 returns "Enchanted Blade",
handler 3 returns another string. -/
def sampleRegistryOverride : Registry :=
  register (register (register Registry.empty
      "ItemNameOverride" (retHandler 1 none))
      "ItemNameOverride" (retHandler 2 (some (Val.str "Enchanted Blade"))))
      "ItemNameOverride" (retHandler 3 (some (Val.str "Other")))

/-- C3: for a transforming event, the result of the fire is the return value
of the first handler, in registration order, that returns a non-absent value
(handlers that fail or return nothing do not affect the result), and every
handler registered after that handler is not called. -/
theorem transforming_first_answer_wins
    (r : Registry) (name : String) (args : List Val)
    (xs ys : List Handler) (h : Handler) (v : Val)
    (hsplit : r name = xs ++ h :: ys)
    (hxs : ∀ x ∈ xs, HOut.fails (x.run args) = true ∨ HOut.ret (x.run args) = none)
    (hh : HOut.fails (h.run args) = false) (hv : HOut.ret (h.run args) = some v) :
    ((fire r true name args).2).result = some v ∧
    ((fire r true name args).2).trace = xs.map Handler.hid ++ [h.hid] ∧
    (∀ y ∈ ys, y.hid ∉ xs.map Handler.hid → y.hid ≠ h.hid →
        y.hid ∉ ((fire r true name args).2).trace) := by
  have hmain := runHandlers_true_first_answer args v h ys hh hv xs hxs r FireState.init
  rw [fire, hsplit]
  have htr : ((runHandlers true args (xs ++ h :: ys) r FireState.init).2).trace
      = xs.map Handler.hid ++ [h.hid] := by
    rw [hmain.2]
    simp [FireState.init]
  refine ⟨hmain.1, htr, ?_⟩
  intro y _ hyxs hyh
  rw [htr]
  simp only [List.mem_append, List.mem_singleton]
  exact fun hc => hc.elim hyxs hyh

/-- Witness for C3: on "ItemNameOverride" with handlers 1 (no value), 2
(returns "Enchanted Blade") and 3 (returns another string), the result is
"Enchanted Blade" and only handlers 1 and 2 are called. -/
theorem transforming_first_answer_wins_witness :
    ((fire sampleRegistryOverride true "ItemNameOverride" []).2).result
      = some (Val.str "Enchanted Blade") ∧
    ((fire sampleRegistryOverride true "ItemNameOverride" []).2).trace = [1, 2] := by
  have hth := transforming_first_answer_wins sampleRegistryOverride "ItemNameOverride" []
    [retHandler 1 none] [retHandler 3 (some (Val.str "Other"))]
    (retHandler 2 (some (Val.str "Enchanted Blade"))) (Val.str "Enchanted Blade")
    rfl (by intro x hx; simp only [List.mem_singleton] at hx; subst hx; exact Or.inr rfl)
    rfl rfl
  refine ⟨hth.1, ?_⟩
  rw [hth.2.1]
  rfl

/-- A sample registry for name "E" holding one handler that, when called,
registers the inert handler 2 for "E". -/
def sampleRegistryMidReg : Registry :=
  register Registry.empty "E" (regHandler 1 "E" (noopHandler 2))

/-- C4: the handler list a fire iterates is the snapshot taken when the fire
starts: a handler registered for the name while the fire is in progress
(fresh identity, appended to the registry the fire returns) is not called by
that fire, and the very next fire for the name calls it, after all previously
registered handlers. -/
theorem registration_during_fire_uses_snapshot
    (r : Registry) (name : String) (args : List Val) (hNew : Handler)
    (hfresh : hNew.hid ∉ (r name).map Handler.hid)
    (hreg : ((fire r false name args).1) name = r name ++ [hNew]) :
    hNew.hid ∉ ((fire r false name args).2).trace ∧
    ((fire (fire r false name args).1 false name args).2).trace
      = (r name).map Handler.hid ++ [hNew.hid] := by
  constructor
  · rw [fire, runHandlers_false_trace]
    simpa [FireState.init] using hfresh
  · conv_lhs => rw [fire]
    rw [runHandlers_false_trace, hreg]
    simp [FireState.init]

/-- Witness for C4: handler 1 on "E" registers handler 2 for "E" while the
fire runs; the first fire calls only handler 1, the next fire calls 1 then
2. -/
theorem registration_during_fire_uses_snapshot_witness :
    (noopHandler 2).hid ∉ ((fire sampleRegistryMidReg false "E" []).2).trace ∧
    ((fire (fire sampleRegistryMidReg false "E" []).1 false "E" []).2).trace = [1, 2] := by
  have hth := registration_during_fire_uses_snapshot sampleRegistryMidReg "E" []
    (noopHandler 2) (by decide) rfl
  refine ⟨hth.1, ?_⟩
  rw [hth.2]
  rfl

/-- A sample registry for "ItemUse" with handler 1, which calls prevent and
then fails, followed by the inert handler 2. -/
def sampleRegistryFail : Registry :=
  register (register Registry.empty "ItemUse" (failHandler 1 true)) "ItemUse" (noopHandler 2)

/-- C5: a failing handler is isolated: the handlers after it still run with
the original arguments (the full trace is produced, in order), the failure is
reported in the per-fire failure list rather than propagated (the fire still
returns a state to the producer), and the prevention flag reflects exactly
the successful prevent reports of the handlers of the fire, including one the
failing handler made before it failed. -/
theorem failing_handler_is_isolated
    (r : Registry) (name : String) (args : List Val)
    (xs ys : List Handler) (hf : Handler)
    (hsplit : r name = xs ++ hf :: ys)
    (hfail : HOut.fails (hf.run args) = true) :
    ((fire r false name args).2).trace
      = xs.map Handler.hid ++ hf.hid :: ys.map Handler.hid ∧
    ((fire r false name args).2).prevented
      = (r name).any (fun h => HOut.prevents (h.run args)) ∧
    hf.hid ∈ ((fire r false name args).2).failures := by
  refine ⟨?_, ?_, ?_⟩
  · rw [fire, runHandlers_false_trace, hsplit]
    simp [FireState.init]
  · rw [fire, runHandlers_false_prevented]
    simp [FireState.init]
  · rw [fire, runHandlers_false_failures]
    simp only [FireState.init, List.nil_append, List.mem_map, List.mem_filter]
    exact ⟨hf, ⟨by rw [hsplit]; simp, hfail⟩, rfl⟩

/-- Witness for C5: on "ItemUse", handler 1 calls prevent and fails, inert
handler 2 still runs, the fire reports prevented, and the failure of handler
1 is recorded. -/
theorem failing_handler_is_isolated_witness :
    ((fire sampleRegistryFail false "ItemUse" []).2).trace = [1, 2] ∧
    ((fire sampleRegistryFail false "ItemUse" []).2).prevented = true ∧
    (1 : Nat) ∈ ((fire sampleRegistryFail false "ItemUse" []).2).failures := by
  have hth := failing_handler_is_isolated sampleRegistryFail "ItemUse" []
    [] [noopHandler 2] (failHandler 1 true) rfl rfl
  refine ⟨?_, ?_, hth.2.2⟩
  · rw [hth.1]
    rfl
  · rw [hth.2.1]
    rfl

/-- C8: the dynamic fire path accepts any event name with up to ten
positional arguments; the missing positions are padded with the absent
marker, never an error: the padded list has length ten, begins with the
supplied arguments, holds the absent marker at every missing position, and
invokeCallback dispatches on the padded list. -/
theorem invokeCallback_pads_missing_args
    (r : Registry) (name : String) (args : List Val)
    (hlen : args.length ≤ 10) :
    (padArgs args).length = 10 ∧
    (padArgs args).take args.length = args ∧
    (∀ i : Nat, args.length ≤ i → i < 10 →
        (padArgs args).getD i (Val.num 0) = Val.absent) ∧
    invokeCallback r name args = fire r false name (padArgs args) := by
  refine ⟨?_, ?_, ?_, rfl⟩
  · simp only [padArgs, List.length_append, List.length_replicate]
    omega
  · exact List.take_left args _
  · intro i h1 h2
    rw [padArgs, List.getD_append_right _ _ _ _ h1, List.getD_eq_getElem?_getD,
      List.getElem?_replicate, if_pos (by omega)]
    rfl

/-- Witness for C8: two supplied arguments are padded to ten, preserved at
the front, with the absent marker at position five. -/
theorem invokeCallback_pads_missing_args_witness :
    (padArgs [Val.num 7, Val.str "a"]).length = 10 ∧
    (padArgs [Val.num 7, Val.str "a"]).take 2 = [Val.num 7, Val.str "a"] ∧
    (padArgs [Val.num 7, Val.str "a"]).getD 5 (Val.num 0) = Val.absent := by
  have hth := invokeCallback_pads_missing_args Registry.empty "MyModHello"
    [Val.num 7, Val.str "a"] (by decide)
  exact ⟨hth.1, hth.2.1, hth.2.2.1 5 (by decide) (by decide)⟩

end CallbackBus
